import Mathlib

/-!
Verification of the Kronos Blackhole tracker-protection service
(`service.py`).

The Python source is shallowly embedded below:

* Python `str` values are Lean `String`s; the string methods used by the
  source (`lower`, `strip`, `split('.')`, `startswith`, `'.'.join`) are
  embedded as executable functions over `String.data`, with the ASCII
  semantics of `Char.toLower` standing in for `str.lower`.
* The two module-level globals `BLOCKED` and `ALLOWED` (Python `set`s of
  strings) are embedded as a `RuleSet` holding two lists; only membership
  matters anywhere in the source, so list membership models set
  membership.
* `None` arguments (absent hostname) are embedded as `Option String`,
  matching the truthiness test `if not hostname`.
* File I/O is embedded as a function `fs : String → Option (List String)`
  from a path to the lines of the file, `none` meaning the read raises;
  log output is returned explicitly as a list of messages (entry counts
  in the log text are elided).
* The monkey-patching lifecycle (`start_blackhole` / `main_loop` with its
  `try/except/finally`) is embedded as explicit state over the three
  patched attribute slots.
-/

namespace Kronos

/-! ## Character-level facts about `Char.toLower` and `Char.isWhitespace` -/

theorem charEq_iff_toNat (c d : Char) : c = d ↔ c.toNat = d.toNat := by
  constructor
  · intro h; rw [h]
  · intro h
    apply Char.ext
    have h2 : c.val.toNat = d.val.toNat := h
    exact UInt32.toNat.inj h2

theorem charToNat_ofNat_valid (n : Nat) (h : Nat.isValidChar n) :
    (Char.ofNat n).toNat = n := by
  rw [Char.ofNat, dif_pos h]
  rfl

theorem charToLower_eq_ite (c : Char) :
    Char.toLower c = if 65 ≤ c.toNat ∧ c.toNat ≤ 90 then Char.ofNat (c.toNat + 32) else c := rfl

theorem toNat_charToLower (c : Char) :
    (Char.toLower c).toNat = if 65 ≤ c.toNat ∧ c.toNat ≤ 90 then c.toNat + 32 else c.toNat := by
  rw [charToLower_eq_ite]
  by_cases h : 65 ≤ c.toNat ∧ c.toNat ≤ 90
  · rw [if_pos h, if_pos h]
    exact charToNat_ofNat_valid _ (Or.inl (by omega))
  · rw [if_neg h, if_neg h]

theorem charIsWhitespace_iff (c : Char) :
    c.isWhitespace = true ↔ (c.toNat = 32 ∨ c.toNat = 9 ∨ c.toNat = 13 ∨ c.toNat = 10) := by
  unfold Char.isWhitespace
  simp only [Bool.or_eq_true, decide_eq_true_eq]
  rw [charEq_iff_toNat, charEq_iff_toNat, charEq_iff_toNat, charEq_iff_toNat]
  have h1 : (' ' : Char).toNat = 32 := rfl
  have h2 : ('\t' : Char).toNat = 9 := rfl
  have h3 : ('\r' : Char).toNat = 13 := rfl
  have h4 : ('\n' : Char).toNat = 10 := rfl
  rw [h1, h2, h3, h4]
  tauto

theorem charToLower_idem (c : Char) : Char.toLower (Char.toLower c) = Char.toLower c := by
  rw [charEq_iff_toNat, toNat_charToLower, toNat_charToLower]
  by_cases h : 65 ≤ c.toNat ∧ c.toNat ≤ 90
  · rw [if_pos h, if_neg (by omega)]
  · rw [if_neg h, if_neg h]

theorem isWhitespace_charToLower (c : Char) :
    (Char.toLower c).isWhitespace = c.isWhitespace := by
  by_cases h : 65 ≤ c.toNat ∧ c.toNat ≤ 90
  · have hl : (Char.toLower c).toNat = c.toNat + 32 := by rw [toNat_charToLower, if_pos h]
    have hlw : (Char.toLower c).isWhitespace = false := by
      rw [← Bool.not_eq_true]
      intro hw
      rw [charIsWhitespace_iff, hl] at hw
      omega
    have hcw : c.isWhitespace = false := by
      rw [← Bool.not_eq_true]
      intro hw
      rw [charIsWhitespace_iff] at hw
      omega
    rw [hlw, hcw]
  · have hfix : Char.toLower c = c := by rw [charToLower_eq_ite, if_neg h]
    rw [hfix]

theorem charToLower_eq_hash_iff (c : Char) : Char.toLower c = '#' ↔ c = '#' := by
  rw [charEq_iff_toNat, charEq_iff_toNat, toNat_charToLower]
  have h35 : ('#' : Char).toNat = 35 := rfl
  rw [h35]
  by_cases h : 65 ≤ c.toNat ∧ c.toNat ≤ 90
  · rw [if_pos h]; omega
  · rw [if_neg h]

/-! ## Embedded Python string primitives -/

/-- Embedding of Python `str.lower()` (ASCII case mapping, as in
`Char.toLower`). -/
def strLower (s : String) : String := String.mk (s.data.map Char.toLower)

/-- Embedding of Python `str.strip()` on the character list: drop leading
whitespace, then drop trailing whitespace. -/
def stripData (l : List Char) : List Char :=
  List.rdropWhile Char.isWhitespace (l.dropWhile Char.isWhitespace)

/-- Embedding of Python `str.strip()`. -/
def strStrip (s : String) : String := String.mk (stripData s.data)

/-- Helper for `strSplitDot`: walks the characters accumulating the current
label (reversed), emitting a label at each dot. -/
def splitDotAux : List Char → List Char → List String
  | [], acc => [String.mk acc.reverse]
  | c :: cs, acc =>
    if c = '.' then String.mk acc.reverse :: splitDotAux cs []
    else splitDotAux cs (c :: acc)

/-- Embedding of Python `hostname.split('.')`. -/
def strSplitDot (s : String) : List String := splitDotAux s.data []

/-- Embedding of Python `".".join(parts)`. -/
def joinDot : List String → String
  | [] => ""
  | [p] => p
  | p :: q :: rest => p ++ "." ++ joinDot (q :: rest)

/-- Embedding of Python `s.startswith('#')`. -/
def startsWithHash (s : String) : Bool :=
  match s.data with
  | [] => false
  | c :: _ => c = '#'

/-! ## Rule sets and the loader (`load_blocklists`, `_read_lines_native`) -/

/-- The pair of module-level globals `BLOCKED` and `ALLOWED`.  The spec
calls this pair a `RuleSet`.  Python sets of strings are modelled as lists;
the source only ever tests membership. -/
structure RuleSet where
  blocked : List String
  allowed : List String
deriving DecidableEq

/-- One line's normalization in `load_blocklists.parse`:
`s = line.strip().lower()`. -/
def normLine (line : String) : String := strLower (strStrip line)

/-- The guard in `load_blocklists.parse`:
`if s and not s.startswith('#')`. -/
def keepEntry (s : String) : Bool := !(s == "") && !(startsWithHash s)

/-- The body of `load_blocklists.parse` applied to the lines of one source
file: normalize each line and keep the non-empty non-comment results.
(The Python loop adds the kept strings to a set; the filtered list has the
same members.) -/
def parseLines (lines : List String) : List String :=
  (lines.map normLine).filter keepEntry

/-- The spec's classification of a source line as contributing no entry:
a blank line (no non-whitespace character) or a line whose first
non-whitespace character is `#`. -/
def blankOrComment (line : String) : Bool :=
  match (line.data.dropWhile Char.isWhitespace).head? with
  | none => true
  | some c => c = '#'

/-- Embedding of `_read_lines_native`: returns the file's lines, or on a
read failure returns `[]` after logging an error line.  The second
component is the emitted log. -/
def read_lines_native (fs : String → Option (List String)) (path : String) :
    List String × List String :=
  match fs path with
  | some lines => (lines, [])
  | none => ([], ["Error reading " ++ path])

/-- `load_blocklists.parse(path)` together with its log output (the
"Loaded ... entries" line's count is elided from the message text). -/
def parseSource (fs : String → Option (List String)) (path : String) :
    List String × List String :=
  let res := read_lines_native fs path
  (parseLines res.1, res.2 ++ ["Loaded entries from " ++ path])

/-- Embedding of `load_blocklists`: rebuilds `BLOCKED` from the blocklist
path and `ALLOWED` from the whitelist path, accumulating the log. -/
def load_blocklists (fs : String → Option (List String))
    (blockPath allowPath : String) : RuleSet × List String :=
  let pb := parseSource fs blockPath
  let pa := parseSource fs allowPath
  (RuleSet.mk pb.1 pa.1, pb.2 ++ pa.2)

/-! ## The matcher (`is_blocked`) -/

/-- The `for i in range(len(parts))` loop of `is_blocked`: test each join
`".".join(parts[i:])` against `BLOCKED`, returning at the first hit. -/
def suffixLoop : List String → List String → Bool
  | [], _ => false
  | p :: rest, blocked =>
    if joinDot (p :: rest) ∈ blocked then true else suffixLoop rest blocked

/-- Embedding of `is_blocked`.  The hostname is `Option String` because the
hooks pass values that may be Python `None`; `if not hostname` is true
exactly for `None` and `""`. -/
def is_blocked (rs : RuleSet) (hostname : Option String) : Bool :=
  match hostname with
  | none => false
  | some h =>
    if h = "" then false
    else
      if strLower h ∈ rs.allowed then false
      else suffixLoop (strSplitDot (strLower h)) rs.blocked

/-! ## The three hooks (`patched_getaddrinfo`, `patched_wrap_socket`,
`patched_http_request`)

Each hook is parametrized by the behaviour of the original primitive it
wraps (`ORIG_getaddrinfo`, `ORIG_wrap_socket`, `ORIG_http_request`) and by
the rule set it reads (the `BLOCKED`/`ALLOWED` globals).  Raising is
modelled as a dedicated result constructor.  The hooks' log lines are
elided. -/

/-- One element of the list returned by `socket.getaddrinfo`:
`(family, type, proto, canonname, sockaddr)`. -/
structure AddrInfo where
  family : Nat
  socktype : Nat
  proto : Nat
  canonname : String
  sockaddr : String × Nat
deriving DecidableEq

/-- `socket.AF_INET` (CPython value). -/
def AF_INET : Nat := 2

/-- `socket.SOCK_STREAM` (CPython value). -/
def SOCK_STREAM : Nat := 1

/-- The synthetic result `[(AF_INET, SOCK_STREAM, 6, '', ('0.0.0.0', 0))]`
returned for a blocked lookup. -/
def blackholeAddrInfo : List AddrInfo :=
  [AddrInfo.mk AF_INET SOCK_STREAM 6 "" ("0.0.0.0", 0)]

/-- Embedding of `patched_getaddrinfo`.  `rest` stands for `*args, **kwargs`
and `orig` for `ORIG_getaddrinfo`. -/
def patched_getaddrinfo {α : Type} (rs : RuleSet)
    (orig : Option String → α → List AddrInfo)
    (host : Option String) (rest : α) : List AddrInfo :=
  if is_blocked rs host then blackholeAddrInfo
  else orig host rest

/-- Outcome of `patched_wrap_socket`: either the deliberate `ssl.SSLError`,
or the original routine's result. -/
inductive TlsOutcome (ρ : Type) where
  | sslError
  | delegated (r : ρ)
deriving DecidableEq

/-- Embedding of `patched_wrap_socket`; `server_hostname` is the value of
`kwargs.get("server_hostname")`, and `args` stands for the remaining
arguments passed through to `ORIG_wrap_socket`. -/
def patched_wrap_socket {α ρ : Type} (rs : RuleSet) (orig : α → ρ)
    (server_hostname : Option String) (args : α) : TlsOutcome ρ :=
  if is_blocked rs server_hostname then TlsOutcome.sslError
  else TlsOutcome.delegated (orig args)

/-- Outcome of `patched_http_request`: either the deliberate
`ConnectionAbortedError` (after `self.close()`), or the original routine's
result. -/
inductive HttpOutcome (ρ : Type) where
  | connectionAborted
  | delegated (r : ρ)
deriving DecidableEq

/-- Embedding of `headers.get("Host")`: Python `dict` lookup by exact
(case-sensitive) key equality.  The dict is modelled as an association
list. -/
def dictGet (headers : List (String × String)) (key : String) : Option String :=
  (headers.find? (fun kv => kv.1 == key)).map (fun kv => kv.2)

/-- Embedding of `patched_http_request`.  `orig` is
`ORIG_http_request` applied to `self`; the trailing `*a, **kw` are
elided. -/
def patched_http_request {ρ : Type} (rs : RuleSet)
    (orig : String → String → Option String → List (String × String) → ρ)
    (method url : String) (body : Option String)
    (headers : Option (List (String × String))) : HttpOutcome ρ :=
  let hdrs := headers.getD []
  if is_blocked rs (dictGet hdrs "Host") then HttpOutcome.connectionAborted
  else HttpOutcome.delegated (orig method url body hdrs)

/-! ## Lifecycle: `start_blackhole` and `main_loop`

The three patched attribute slots (`socket.getaddrinfo`,
`ssl.SSLContext.wrap_socket`, `http.client.HTTPConnection.request`) are
modelled as a record of opaque function identities. -/

/-- Identity of the function stored in a patched slot. -/
inductive NetFun where
  | sys_getaddrinfo
  | sys_wrap_socket
  | sys_http_request
  | hook_getaddrinfo
  | hook_wrap_socket
  | hook_http_request
deriving DecidableEq

/-- The three process-wide attribute slots the service patches. -/
structure NetPrims where
  getaddrinfo : NetFun
  wrap_socket : NetFun
  http_request : NetFun
deriving DecidableEq

/-- The slots as they are at process start (module import time), before
any patching. -/
def processStartPrims : NetPrims :=
  NetPrims.mk NetFun.sys_getaddrinfo NetFun.sys_wrap_socket NetFun.sys_http_request

/-- `ORIG_getaddrinfo = socket.getaddrinfo`, captured at module import. -/
def ORIG_getaddrinfo : NetFun := processStartPrims.getaddrinfo

/-- `ORIG_wrap_socket = ssl.SSLContext.wrap_socket`, captured at module
import. -/
def ORIG_wrap_socket : NetFun := processStartPrims.wrap_socket

/-- `ORIG_http_request = http.client.HTTPConnection.request`, captured at
module import. -/
def ORIG_http_request : NetFun := processStartPrims.http_request

/-- First assignment in `start_blackhole`:
`socket.getaddrinfo = patched_getaddrinfo`. -/
def installGetaddrinfo (s : NetPrims) : NetPrims :=
  { s with getaddrinfo := NetFun.hook_getaddrinfo }

/-- Second assignment in `start_blackhole`:
`ssl.SSLContext.wrap_socket = patched_wrap_socket`. -/
def installWrapSocket (s : NetPrims) : NetPrims :=
  { s with wrap_socket := NetFun.hook_wrap_socket }

/-- Third assignment in `start_blackhole`:
`http.client.HTTPConnection.request = patched_http_request`. -/
def installHttpRequest (s : NetPrims) : NetPrims :=
  { s with http_request := NetFun.hook_http_request }

/-- The three installation assignments of `start_blackhole`, in source
order. -/
def start_blackhole (s : NetPrims) : NetPrims :=
  installHttpRequest (installWrapSocket (installGetaddrinfo s))

/-- The ways the `try:` block of `main_loop` can finish: the abort signal
from the monitor loop, or an exception escaping at any point of activation
or of the monitoring loop. -/
inductive TryExit where
  | abortSignal
  | raisedBeforeInstall
  | raisedAfterInstall1
  | raisedAfterInstall2
  | raisedAfterInstall3
  | raisedInMonitorLoop
deriving DecidableEq

/-- The slot state at the moment the `try:` block of `main_loop` finishes,
for each way it can finish.  (`load_blocklists` and the monitor loop never
touch the three slots.) -/
def tryBlockFinalPrims (s : NetPrims) : TryExit → NetPrims
  | TryExit.abortSignal => start_blackhole s
  | TryExit.raisedBeforeInstall => s
  | TryExit.raisedAfterInstall1 => installGetaddrinfo s
  | TryExit.raisedAfterInstall2 => installWrapSocket (installGetaddrinfo s)
  | TryExit.raisedAfterInstall3 => start_blackhole s
  | TryExit.raisedInMonitorLoop => start_blackhole s

/-- The `finally:` block of `main_loop`: the three restoring assignments
from the captured `ORIG_*` globals. -/
def finallyRestore (s : NetPrims) : NetPrims :=
  { s with getaddrinfo := ORIG_getaddrinfo,
           wrap_socket := ORIG_wrap_socket,
           http_request := ORIG_http_request }

/-- `main_loop`'s effect on the three slots: the `try:` block runs until
`exit`, then the `finally:` block restores.  The `except` clause only
logs. -/
def main_loop (exit : TryExit) : NetPrims :=
  finallyRestore (tryBlockFinalPrims processStartPrims exit)

/-! ## Reload interleaving (`load_blocklists` as two global writes)

`load_blocklists` replaces the globals with two separate assignment
statements, `BLOCKED = parse(BLOCKLIST_PATH)` first and
`ALLOWED = parse(WHITELIST_PATH)` second.  A hook evaluation running
concurrently can observe the pair of globals before the first assignment,
between the two, or after the second.  Each assignment rebinds a whole
set; sets are never mutated in place. -/

/-- The pairs of globals observable by a hook evaluation interleaved with
one reload: the old pair, the intermediate pair (new `BLOCKED`, old
`ALLOWED`), and the new pair. -/
def reloadObservableStates (old : RuleSet) (blockLines allowLines : List String) :
    List RuleSet :=
  [old,
   RuleSet.mk (parseLines blockLines) old.allowed,
   RuleSet.mk (parseLines blockLines) (parseLines allowLines)]

/-! ## Supporting lemmas -/

theorem strLower_data (s : String) : (strLower s).data = s.data.map Char.toLower := rfl

theorem string_eq_iff_data (s t : String) : s = t ↔ s.data = t.data := by
  constructor
  · intro h; rw [h]
  · intro h
    cases s
    cases t
    exact congrArg String.mk h

theorem strLower_eq_empty_iff (s : String) : strLower s = "" ↔ s = "" := by
  rw [string_eq_iff_data, string_eq_iff_data, strLower_data]
  have hd : ("" : String).data = [] := rfl
  rw [hd]
  simp

theorem strLower_idem (s : String) : strLower (strLower s) = strLower s := by
  rw [string_eq_iff_data, strLower_data, strLower_data, List.map_map]
  apply List.map_congr_left
  intro c _
  exact charToLower_idem c

theorem dropWhile_head_false {α : Type} {p : α → Bool} {l : List α} {c : α} {t : List α}
    (h : l.dropWhile p = c :: t) : p c = false := by
  induction l with
  | nil => simp at h
  | cons a l ih =>
    rw [List.dropWhile_cons] at h
    by_cases hp : p a
    · rw [if_pos hp] at h
      exact ih h
    · rw [if_neg hp] at h
      cases h
      simpa using hp

theorem head_of_isPrefix {α : Type} {l m : List α} {c : α} {t : List α}
    (hpre : l <+: m) (hl : l = c :: t) : m.head? = some c := by
  obtain ⟨u, hu⟩ := hpre
  subst hl
  rw [← hu]
  rfl

theorem stripData_head (d : List Char) :
    (stripData d).head? = (d.dropWhile Char.isWhitespace).head? := by
  unfold stripData
  cases hm : d.dropWhile Char.isWhitespace with
  | nil => simp
  | cons c t =>
    have hc : Char.isWhitespace c = false := dropWhile_head_false hm
    have hne : List.rdropWhile Char.isWhitespace (c :: t) ≠ [] := by
      rw [Ne, List.rdropWhile_eq_nil_iff]
      intro hall
      have := hall c (by simp)
      rw [hc] at this
      simp at this
    cases hrd : List.rdropWhile Char.isWhitespace (c :: t) with
    | nil => exact absurd hrd hne
    | cons x xs =>
      have hpre : List.rdropWhile Char.isWhitespace (c :: t) <+: (c :: t) :=
        List.rdropWhile_prefix _ _
      have hx : (c :: t).head? = some x := head_of_isPrefix hpre hrd
      have hx2 : x = c := by
        simp at hx
        exact hx.symm
      simp [hrd, hx2]

theorem stripData_eq_nil_iff (d : List Char) :
    stripData d = [] ↔ d.dropWhile Char.isWhitespace = [] := by
  unfold stripData
  constructor
  · intro h
    cases hm : d.dropWhile Char.isWhitespace with
    | nil => rfl
    | cons c t =>
      have hc : Char.isWhitespace c = false := dropWhile_head_false hm
      rw [hm, List.rdropWhile_eq_nil_iff] at h
      have := h c (by simp)
      rw [hc] at this
      simp at this
  · intro h
    rw [h]
    simp [List.rdropWhile]

theorem stripData_getLast_not_ws {d : List Char} {c : Char}
    (h : (stripData d).getLast? = some c) : Char.isWhitespace c = false := by
  unfold stripData at h
  set m := d.dropWhile Char.isWhitespace with hm
  have hne : List.rdropWhile Char.isWhitespace m ≠ [] := by
    intro hnil
    rw [hnil] at h
    simp at h
  have hlast := List.getLast?_eq_getLast _ hne
  rw [hlast] at h
  have hnot := List.rdropWhile_last_not Char.isWhitespace m hne
  have hceq : (List.rdropWhile Char.isWhitespace m).getLast hne = c := by
    injection h
  rw [hceq] at hnot
  simpa using hnot

theorem suffixLoop_eq_true_iff (parts blocked : List String) :
    suffixLoop parts blocked = true ↔
      ∃ i, i < parts.length ∧ joinDot (parts.drop i) ∈ blocked := by
  induction parts with
  | nil =>
    simp [suffixLoop]
  | cons p rest ih =>
    rw [suffixLoop]
    by_cases h : joinDot (p :: rest) ∈ blocked
    · rw [if_pos h]
      simp only [true_iff]
      exact ⟨0, by simp, by simpa using h⟩
    · rw [if_neg h, ih]
      constructor
      · rintro ⟨i, hi, hmem⟩
        exact ⟨i + 1, by simpa using hi, by simpa using hmem⟩
      · rintro ⟨i, hi, hmem⟩
        cases i with
        | zero => exact absurd (by simpa using hmem) h
        | succ j =>
          exact ⟨j, by simpa using hi, by simpa using hmem⟩

theorem is_blocked_none (rs : RuleSet) : is_blocked rs none = false := rfl

theorem is_blocked_empty (rs : RuleSet) : is_blocked rs (some "") = false := rfl

theorem is_blocked_of_allowed (rs : RuleSet) (h : String)
    (hal : strLower h ∈ rs.allowed) : is_blocked rs (some h) = false := by
  simp only [is_blocked]
  by_cases hne : h = ""
  · rw [if_pos hne]
  · rw [if_neg hne, if_pos hal]

theorem is_blocked_not_allowed (rs : RuleSet) (h : String) (hne : h ≠ "")
    (hal : strLower h ∉ rs.allowed) :
    is_blocked rs (some h) = suffixLoop (strSplitDot (strLower h)) rs.blocked := by
  simp only [is_blocked]
  rw [if_neg hne, if_neg hal]

theorem string_eq_empty_iff_data (s : String) : s = "" ↔ s.data = [] := by
  rw [string_eq_iff_data]

theorem normLine_data (l : String) :
    (normLine l).data = (stripData l.data).map Char.toLower := rfl

theorem keepEntry_normLine (l : String) :
    keepEntry (normLine l) = !(blankOrComment l) := by
  unfold keepEntry blankOrComment
  cases hm : (l.data.dropWhile Char.isWhitespace).head? with
  | none =>
    rw [List.head?_eq_none_iff] at hm
    have hstrip : stripData l.data = [] := (stripData_eq_nil_iff l.data).mpr hm
    have hempty : normLine l = "" := by
      rw [string_eq_empty_iff_data, normLine_data, hstrip]
      rfl
    rw [hempty]
    rfl
  | some c =>
    have hhead : (normLine l).data.head? = some (Char.toLower c) := by
      rw [normLine_data, List.head?_map, stripData_head, hm]
      rfl
    rw [List.head?_eq_some_iff] at hhead
    obtain ⟨ys, hys⟩ := hhead
    have hne : (normLine l == "") = false := by
      rw [beq_eq_false_iff_ne, Ne, string_eq_empty_iff_data, hys]
      simp
    have hsw : startsWithHash (normLine l) = decide (c = '#') := by
      unfold startsWithHash
      rw [hys]
      simp only
      exact decide_eq_decide.mpr (charToLower_eq_hash_iff c)
    rw [hne, hsw]
    simp

theorem parseLines_drop_blank_comment (lines : List String) :
    parseLines (lines.filter (fun l => !(blankOrComment l))) = parseLines lines := by
  unfold parseLines
  have hcong : lines.filter (fun l => !(blankOrComment l)) =
      lines.filter (fun l => keepEntry (normLine l)) := by
    apply List.filter_congr
    intro l _
    rw [keepEntry_normLine]
  rw [hcong]
  have hmapfil : List.filter keepEntry (List.map normLine lines) =
      List.map normLine (List.filter (keepEntry ∘ normLine) lines) :=
    List.filter_map normLine lines
  have hfil2 : lines.filter (fun l => keepEntry (normLine l)) =
      lines.filter (keepEntry ∘ normLine) := rfl
  rw [hfil2, ← hmapfil, List.filter_filter]
  simp

/-! ## Claims -/

/-- C1: Domain-suffix matching.  For every non-empty hostname whose
lower-cased form is not a member of `allowed`, `is_blocked` returns `true`
iff some dot-suffix of the lower-cased hostname — obtained by dropping
zero or more leading dot-separated labels, down to the bare top-level
label — is a member of `blocked`. -/
theorem claim_C1 (rs : RuleSet) (h : String) (hne : h ≠ "")
    (hal : strLower h ∉ rs.allowed) :
    is_blocked rs (some h) = true ↔
      ∃ i, i < (strSplitDot (strLower h)).length ∧
        joinDot ((strSplitDot (strLower h)).drop i) ∈ rs.blocked := by
  rw [is_blocked_not_allowed rs h hne hal, suffixLoop_eq_true_iff]

/-- Witness for C1: `track.example.com` is blocked when `example.com` is
in the blocklist, via the dot-suffix at index 1. -/
theorem claim_C1_witness :
    is_blocked (RuleSet.mk ["example.com"] []) (some "track.example.com") = true :=
  (claim_C1 (RuleSet.mk ["example.com"] []) "track.example.com" (by decide)
    (by decide)).mpr ⟨1, by decide, by decide⟩

/-- C2 counterexample: a hook evaluation interleaved between the two
global assignments of `load_blocklists` observes the new `BLOCKED` with
the old `ALLOWED` — a state equal to neither the old nor the new pair —
and its blocking decision for `x.com` (true) matches neither the decision
under the old pair nor under the new pair (both false). -/
theorem claim_C2_counterexample :
    (¬ (∀ rsObs ∈ reloadObservableStates (RuleSet.mk [] []) ["x.com"] ["x.com"],
        rsObs = RuleSet.mk [] [] ∨
        rsObs = RuleSet.mk (parseLines ["x.com"]) (parseLines ["x.com"]))) ∧
    RuleSet.mk (parseLines ["x.com"]) [] ∈
      reloadObservableStates (RuleSet.mk [] []) ["x.com"] ["x.com"] ∧
    is_blocked (RuleSet.mk (parseLines ["x.com"]) []) (some "x.com") = true ∧
    is_blocked (RuleSet.mk [] []) (some "x.com") = false ∧
    is_blocked (RuleSet.mk (parseLines ["x.com"]) (parseLines ["x.com"]))
      (some "x.com") = false := by
  decide

/-- C2 (amended): each of the two sets individually is replaced wholesale
(rebound, never mutated), so every interleaved evaluation observes, for
each set separately, either the whole old set or the whole new set — but
because `BLOCKED` is assigned before `ALLOWED`, an evaluation between the
two assignments can observe the new blocked set paired with the old
allowed set. -/
theorem claim_C2 (old : RuleSet) (blockLines allowLines : List String) :
    ∀ rsObs ∈ reloadObservableStates old blockLines allowLines,
      (rsObs.blocked = old.blocked ∨ rsObs.blocked = parseLines blockLines) ∧
      (rsObs.allowed = old.allowed ∨ rsObs.allowed = parseLines allowLines) := by
  intro rsObs hmem
  simp only [reloadObservableStates, List.mem_cons, List.not_mem_nil, or_false] at hmem
  rcases hmem with h | h | h
  · subst h
    exact ⟨Or.inl rfl, Or.inl rfl⟩
  · subst h
    exact ⟨Or.inr rfl, Or.inl rfl⟩
  · subst h
    exact ⟨Or.inr rfl, Or.inr rfl⟩

/-- Witness for C2 at the intermediate state of a concrete reload. -/
theorem claim_C2_witness :
    ((RuleSet.mk (parseLines ["x1.com"]) ["old.com"]).blocked =
        (RuleSet.mk ["oldb.com"] ["old.com"]).blocked ∨
      (RuleSet.mk (parseLines ["x1.com"]) ["old.com"]).blocked = parseLines ["x1.com"]) ∧
    ((RuleSet.mk (parseLines ["x1.com"]) ["old.com"]).allowed =
        (RuleSet.mk ["oldb.com"] ["old.com"]).allowed ∨
      (RuleSet.mk (parseLines ["x1.com"]) ["old.com"]).allowed = parseLines ["y1.com"]) :=
  claim_C2 (RuleSet.mk ["oldb.com"] ["old.com"]) ["x1.com"] ["y1.com"]
    (RuleSet.mk (parseLines ["x1.com"]) ["old.com"]) (by decide)

/-- C3: Allow-list precedence.  Any hostname whose lower-cased form is in
`allowed` is never blocked, whatever `blocked` contains; and an allowed
entry does not shield other hostnames sharing a suffix with it
(spec Scenario B). -/
theorem claim_C3 :
    (∀ (rs : RuleSet) (h : String), strLower h ∈ rs.allowed →
        is_blocked rs (some h) = false) ∧
    is_blocked (RuleSet.mk ["example.com"] ["track.example.com"])
      (some "track.example.com") = false ∧
    is_blocked (RuleSet.mk ["example.com"] ["track.example.com"])
      (some "other.example.com") = true :=
  ⟨fun rs h hal => is_blocked_of_allowed rs h hal, by decide, by decide⟩

/-- Witness for C3: a differently-cased spelling of an allowed hostname is
not blocked even though it is itself in the blocklist. -/
theorem claim_C3_witness :
    is_blocked (RuleSet.mk ["ads.com"] ["ads.com"]) (some "Ads.COM") = false :=
  claim_C3.1 (RuleSet.mk ["ads.com"] ["ads.com"]) "Ads.COM" (by decide)

/-- C4 counterexample: the loader does not remove a trailing dot (nor a
leading wildcard marker): loading the single line `tracker.com.` produces
the member `tracker.com.`, whose last character is a dot, refuting the
claimed normalization invariant as stated. -/
theorem claim_C4_counterexample :
    ¬ (∀ lines : List String, ∀ s ∈ parseLines lines,
        s ≠ "" ∧ strLower s = s ∧
        (∀ c, s.data.head? = some c → c.isWhitespace = false) ∧
        (∀ c, s.data.getLast? = some c → c.isWhitespace = false) ∧
        s.data.getLast? ≠ some '.' ∧ s.data.head? ≠ some '*') := by
  intro hclaim
  have h := hclaim ["tracker.com."] "tracker.com." (by decide)
  exact h.2.2.2.2.1 (by decide)

/-- C4 (amended): after a load, every member of either set is a non-empty,
lower-cased string with no leading or trailing whitespace and does not
start with `#`; blank lines and lines whose first non-whitespace character
is `#` contribute no members.  (Trailing dots and leading wildcard markers
are NOT removed.) -/
theorem claim_C4 (lines : List String) :
    (∀ s ∈ parseLines lines,
        s ≠ "" ∧ strLower s = s ∧
        (∀ c, s.data.head? = some c → c.isWhitespace = false) ∧
        (∀ c, s.data.getLast? = some c → c.isWhitespace = false) ∧
        startsWithHash s = false) ∧
    parseLines (lines.filter (fun l => !(blankOrComment l))) = parseLines lines := by
  constructor
  · intro s hs
    rw [parseLines, List.mem_filter] at hs
    obtain ⟨hmap, hkeep⟩ := hs
    rw [List.mem_map] at hmap
    obtain ⟨l, _, hnorm⟩ := hmap
    subst hnorm
    unfold keepEntry at hkeep
    rw [Bool.and_eq_true, Bool.not_eq_true', Bool.not_eq_true'] at hkeep
    obtain ⟨hne, hhash⟩ := hkeep
    refine ⟨?_, ?_, ?_, ?_, hhash⟩
    · intro hc
      rw [hc] at hne
      simp at hne
    · exact strLower_idem (strStrip l)
    · intro c hc
      rw [normLine_data, List.head?_map, stripData_head] at hc
      cases hm : (l.data.dropWhile Char.isWhitespace).head? with
      | none =>
        rw [hm] at hc
        simp at hc
      | some c0 =>
        rw [hm] at hc
        have hceq : Char.toLower c0 = c := by
          simpa using hc
        rw [List.head?_eq_some_iff] at hm
        obtain ⟨ys, hys⟩ := hm
        have hc0 : Char.isWhitespace c0 = false := dropWhile_head_false hys
        rw [← hceq, isWhitespace_charToLower]
        exact hc0
    · intro c hc
      rw [normLine_data, List.getLast?_map] at hc
      cases hm : (stripData l.data).getLast? with
      | none =>
        rw [hm] at hc
        simp at hc
      | some c0 =>
        rw [hm] at hc
        have hceq : Char.toLower c0 = c := by
          simpa using hc
        have hc0 : Char.isWhitespace c0 = false := stripData_getLast_not_ws hm
        rw [← hceq, isWhitespace_charToLower]
        exact hc0
  · exact parseLines_drop_blank_comment lines

/-- Witness for C4: loading a padded mixed-case line yields the member
`ads.com`, which the amended invariant accepts. -/
theorem claim_C4_witness :
    "ads.com" ∈ parseLines ["  Ads.COM  ", "", "# note"] ∧
    strLower "ads.com" = "ads.com" :=
  ⟨by decide, ((claim_C4 ["  Ads.COM  ", "", "# note"]).1 "ads.com" (by decide)).2.1⟩

/-- C5: Unconditional restoration on stop.  However the `try:` block of
`main_loop` finishes — abort signal, an exception at any point of
activation (even mid-way through installing the three hooks), or an
exception from the monitoring loop — the `finally:` block leaves all
three primitives exactly as captured at process start. -/
theorem claim_C5 (e : TryExit) :
    main_loop e = processStartPrims ∧
    (main_loop e).getaddrinfo = ORIG_getaddrinfo ∧
    (main_loop e).wrap_socket = ORIG_wrap_socket ∧
    (main_loop e).http_request = ORIG_http_request := by
  cases e <;> exact ⟨rfl, rfl, rfl, rfl⟩

/-- C6: Loader degradation.  A failed read of either source yields the
empty set for that side, an error log line, and leaves the other side's
set exactly what its own source parses to; the loader is a total function
(never raises). -/
theorem claim_C6 (fs : String → Option (List String)) (blockPath allowPath : String) :
    (fs blockPath = none →
        (load_blocklists fs blockPath allowPath).1.blocked = [] ∧
        ("Error reading " ++ blockPath) ∈ (load_blocklists fs blockPath allowPath).2 ∧
        (load_blocklists fs blockPath allowPath).1.allowed =
          parseLines ((fs allowPath).getD [])) ∧
    (fs allowPath = none →
        (load_blocklists fs blockPath allowPath).1.allowed = [] ∧
        ("Error reading " ++ allowPath) ∈ (load_blocklists fs blockPath allowPath).2 ∧
        (load_blocklists fs blockPath allowPath).1.blocked =
          parseLines ((fs blockPath).getD [])) := by
  constructor
  · intro hb
    simp only [load_blocklists, parseSource, read_lines_native, hb]
    cases ha : fs allowPath <;>
      simp [parseLines]
  · intro ha
    simp only [load_blocklists, parseSource, read_lines_native, ha]
    cases hb : fs blockPath <;>
      simp [parseLines]

/-- Witness for C6: with every read failing, the blocked set is empty and
the error for the blocklist path is logged. -/
theorem claim_C6_witness :
    (load_blocklists (fun _ => none) "trackers.txt" "allow.txt").1.blocked = [] ∧
    ("Error reading " ++ "trackers.txt") ∈
      (load_blocklists (fun _ => none) "trackers.txt" "allow.txt").2 :=
  ⟨((claim_C6 (fun _ => none) "trackers.txt" "allow.txt").1 rfl).1,
   ((claim_C6 (fun _ => none) "trackers.txt" "allow.txt").1 rfl).2.1⟩

/-- C7: Resolution-hook block action.  For a blocked host the patched
resolver returns the single synthetic entry
`(AF_INET, SOCK_STREAM, 6, '', ('0.0.0.0', 0))` and its result does not
depend on the original resolver; for a non-blocked host it delegates
unchanged to the original resolver. -/
theorem claim_C7 {α : Type} (rs : RuleSet)
    (orig orig2 : Option String → α → List AddrInfo)
    (host : Option String) (rest : α) :
    (is_blocked rs host = true →
        patched_getaddrinfo rs orig host rest =
          [AddrInfo.mk AF_INET SOCK_STREAM 6 "" ("0.0.0.0", 0)] ∧
        patched_getaddrinfo rs orig host rest =
          patched_getaddrinfo rs orig2 host rest) ∧
    (is_blocked rs host = false →
        patched_getaddrinfo rs orig host rest = orig host rest) := by
  constructor
  · intro hb
    constructor <;> simp [patched_getaddrinfo, hb, blackholeAddrInfo]
  · intro hb
    simp [patched_getaddrinfo, hb]

/-- Witness for C7: a blocked lookup returns the synthetic non-routable
entry. -/
theorem claim_C7_witness :
    patched_getaddrinfo (RuleSet.mk ["ads.com"] [])
      (fun _ _ => ([] : List AddrInfo)) (some "ads.com") () =
      [AddrInfo.mk AF_INET SOCK_STREAM 6 "" ("0.0.0.0", 0)] :=
  ((claim_C7 (RuleSet.mk ["ads.com"] []) (fun _ _ => []) (fun _ _ => [])
    (some "ads.com") ()).1 (by decide)).1

/-- C8: Missing-information default.  The matcher returns `false` for an
absent (`None`) hostname and for the empty hostname, for every rule set,
including ones with a non-empty blocked set. -/
theorem claim_C8 :
    (∀ rs : RuleSet, is_blocked rs none = false ∧ is_blocked rs (some "") = false) ∧
    is_blocked (RuleSet.mk ["x.com"] []) none = false ∧
    is_blocked (RuleSet.mk ["x.com"] []) (some "") = false :=
  ⟨fun _ => ⟨rfl, rfl⟩, rfl, rfl⟩

/-- C9: Case-insensitivity.  The matcher's decision on a hostname equals
its decision on the lower-cased hostname, for every rule set. -/
theorem claim_C9 (rs : RuleSet) (h : String) :
    is_blocked rs (some h) = is_blocked rs (some (strLower h))  := by
  by_cases hne : h = ""
  · subst hne
    rfl
  · have hne2 : strLower h ≠ "" := fun hc => hne ((strLower_eq_empty_iff h).mp hc)
    simp only [is_blocked]
    rw [if_neg hne, if_neg hne2, strLower_idem]

/-- C10: HTTP hook Host-key sensitivity.  When the supplied headers
(after the `None` default) contain no pair whose key is exactly `"Host"`
— including the differently-cased `"host"` — the lookup yields `None`,
so the hook always delegates to the original request routine, whatever
the blocked set. -/
theorem claim_C10 {ρ : Type} (rs : RuleSet)
    (orig : String → String → Option String → List (String × String) → ρ)
    (method url : String) (body : Option String)
    (headers : Option (List (String × String)))
    (hno : ∀ kv ∈ headers.getD [], kv.1 ≠ "Host") :
    dictGet (headers.getD []) "Host" = none ∧
    patched_http_request rs orig method url body headers =
      HttpOutcome.delegated (orig method url body (headers.getD [])) := by
  have hget : dictGet (headers.getD []) "Host" = none := by
    unfold dictGet
    rw [List.find?_eq_none.mpr]
    · rfl
    · intro kv hkv
      simpa using hno kv hkv
  refine ⟨hget, ?_⟩
  simp only [patched_http_request, hget, is_blocked_none]
  simp

/-- Witness for C10: a request whose host travels under the key `"host"`
is delegated, not blocked, even though the host is in the blocklist. -/
theorem claim_C10_witness :
    patched_http_request (RuleSet.mk ["ads.com"] [])
      (fun _ _ _ _ => (0 : Nat)) "GET" "/" none (some [("host", "ads.com")]) =
      HttpOutcome.delegated 0 :=
  (claim_C10 (RuleSet.mk ["ads.com"] []) (fun _ _ _ _ => (0 : Nat)) "GET" "/"
    none (some [("host", "ads.com")]) (by decide)).2

end Kronos
